import Mathlib

/-!
Verification of the streaming detection-to-count reconciliation engine of the
vehicle-detection repository ("Street-Eye").  The definitions below are a
shallow embedding of `VehicleDetectionSystem` in `main.py`: the per-frame
counting loop of `detect_and_count` (dedup ledger, per-second bucketing,
identity resolution with tracking fallback), `categorize_vehicle`, and the
percentage / dominant-category computations of `_generate_summary`.

Modelling conventions:
* stream time (`current_time_in_video = frame_count / fps`) is a rational;
  Python `int()` truncation is `pyInt`;
* Python `set` is `Finset ℤ`; `defaultdict(int)` with `+= 1` is an
  insertion-ordered association list (`bumpCount`), matching Python dict
  insertion order, which `max(d, key=d.get)` (`pyMaxKey`) depends on;
* the external detector is abstracted per frame as: a list of raw detection
  labels, the optional list of tracker ids (`None` when tracking is off or
  the tracker returned no ids), and whether `model.track` raised;
* floats are modelled over ℚ; `str.lower` is modelled on ASCII.
-/

/-- The five fixed vehicle categories of `vehicle_categories` /
`categorize_vehicle` in `main.py`. -/
inductive Category where
  | car
  | bike
  | bus
  | truck
  | others
deriving DecidableEq, Repr

instance : Fintype Category :=
  ⟨⟨{Category.car, Category.bike, Category.bus, Category.truck, Category.others}, by decide⟩,
   by intro c; cases c <;> decide⟩

/-- ASCII model of Python `str.lower()` (class labels are ASCII). -/
def pyLower (s : String) : String :=
  String.mk (s.data.map Char.toLower)

/-- Embeds `VehicleDetectionSystem.categorize_vehicle`: the fixed
`class_mapping` dict lookup on the lowercased label, with default `'others'`. -/
def categorize_vehicle (label : String) : Category :=
  let s := pyLower label
  if s = "bicycle" then Category.bike
  else if s = "car" then Category.car
  else if s = "motorcycle" then Category.bike
  else if s = "bus" then Category.bus
  else if s = "train" then Category.others
  else if s = "truck" then Category.truck
  else Category.others

/-- Embeds `category_plurals`: the category-to-plural-column-name table. -/
def category_plurals : Category → String
  | Category.car => "cars"
  | Category.bike => "bikes"
  | Category.bus => "buses"
  | Category.truck => "trucks"
  | Category.others => "others"

/-- Python `int()` on a rational: truncation toward zero. -/
def pyInt (q : ℚ) : ℤ :=
  if 0 ≤ q then ⌊q⌋ else -⌊-q⌋

/-- The `second_counts` dict of `detect_and_count`: fixed keys
`cars, bikes, buses, trucks, others`, all starting at 0. -/
structure SecondCounts where
  cars : Nat
  bikes : Nat
  buses : Nat
  trucks : Nat
  others : Nat
deriving DecidableEq, Repr

/-- The freshly reset `second_counts` dict (all five keys 0). -/
def SecondCounts.zero : SecondCounts := ⟨0, 0, 0, 0, 0⟩

/-- `second_counts[category_plurals[category]] += 1`. -/
def SecondCounts.bump (sc : SecondCounts) : Category → SecondCounts
  | Category.car => { sc with cars := sc.cars + 1 }
  | Category.bike => { sc with bikes := sc.bikes + 1 }
  | Category.bus => { sc with buses := sc.buses + 1 }
  | Category.truck => { sc with trucks := sc.trucks + 1 }
  | Category.others => { sc with others := sc.others + 1 }

/-- Read one category's entry of the `second_counts` dict. -/
def SecondCounts.get (sc : SecondCounts) : Category → Nat
  | Category.car => sc.cars
  | Category.bike => sc.bikes
  | Category.bus => sc.buses
  | Category.truck => sc.trucks
  | Category.others => sc.others

/-- One row appended to `self.time_series_data`: the dict literal of
`detect_and_count` with keys `time_in_seconds, cars, bikes, buses, trucks,
others, total`. -/
structure Bucket where
  time_in_seconds : ℤ
  cars : Nat
  bikes : Nat
  buses : Nat
  trucks : Nat
  others : Nat
  total : Nat
deriving DecidableEq, Repr

/-- Build the appended row: `total = sum(second_counts.values())`. -/
def mkBucket (cs : ℤ) (sc : SecondCounts) : Bucket :=
  { time_in_seconds := cs
    cars := sc.cars
    bikes := sc.bikes
    buses := sc.buses
    trucks := sc.trucks
    others := sc.others
    total := sc.cars + sc.bikes + sc.buses + sc.trucks + sc.others }

/-- Read one category's per-bucket count. -/
def Bucket.getCat (b : Bucket) : Category → Nat
  | Category.car => b.cars
  | Category.bike => b.bikes
  | Category.bus => b.buses
  | Category.truck => b.trucks
  | Category.others => b.others

/-- `category_counts[category] += 1` on a `defaultdict(int)`: update in place
when the key exists (Python dicts keep insertion order), append `(c, 1)`
otherwise. -/
def bumpCount : List (Category × Nat) → Category → List (Category × Nat)
  | [], c => [(c, 1)]
  | (k, v) :: rest, c =>
      if k = c then (k, v + 1) :: rest else (k, v) :: bumpCount rest c

/-- Dict lookup `category_counts[c]` with `defaultdict(int)` default 0. -/
def getCount : List (Category × Nat) → Category → Nat
  | [], _ => 0
  | (k, v) :: rest, c => if k = c then v else getCount rest c

/-- Helper for `pyMaxKey`: Python `max` keeps the current best and replaces it
only on a strictly greater key value. -/
def pyMaxAux (bk : Category) (bv : Nat) : List (Category × Nat) → Category
  | [] => bk
  | (k, v) :: rest => if bv < v then pyMaxAux k v rest else pyMaxAux bk bv rest

/-- Embeds `max(category_counts, key=category_counts.get)` over the
insertion-ordered dict, as used for the dominant category in
`_generate_summary` (lines 477 and 498); `none` models the guarded empty
case. -/
def pyMaxKey : List (Category × Nat) → Option Category
  | [] => none
  | (k, v) :: rest => some (pyMaxAux k v rest)

/-- Embeds the percentage computation of `_generate_summary`:
`(count / total_vehicles) * 100` per entry of `category_counts.items()` when
`total_vehicles > 0`, else `0`; `total_vehicles = sum(category_counts.values())`. -/
def computePercentages (cc : List (Category × Nat)) : List (Category × ℚ) :=
  let total : Nat := (cc.map Prod.snd).sum
  cc.map (fun p => (p.1, if 0 < total then ((p.2 : ℚ) / (total : ℚ)) * 100 else 0))

/-- Option-valued lookup in the `percentages` plain dict (`none` models the
`KeyError` raised by `percentages[c]` on a missing key). -/
def lookupPct (l : List (Category × ℚ)) (c : Category) : Option ℚ :=
  match l with
  | [] => none
  | (k, v) :: rest => if k = c then some v else lookupPct rest c

/-- Embeds the summary f-string of `_generate_summary` (lines 469-473), which
reads `percentages['car'] … percentages['others']` from the plain dict built
over `category_counts.items()`: it succeeds only if all five keys are
present, otherwise Python raises `KeyError` (modelled as `none`). -/
def summaryPercentages (cc : List (Category × Nat)) : Option (ℚ × ℚ × ℚ × ℚ × ℚ) :=
  let ps := computePercentages cc
  match lookupPct ps Category.car, lookupPct ps Category.bike, lookupPct ps Category.bus,
        lookupPct ps Category.truck, lookupPct ps Category.others with
  | some a, some b, some c, some d, some e => some (a, b, c, d, e)
  | _, _, _, _, _ => none

/-- One input frame, as seen by the counting loop: the frame's
`current_time_in_video`, the detections' raw labels (`class_list[class_idx]`
for each box, in order), the tracker-supplied ids (`results[0].boxes.id`,
`none` when absent), and whether `self.model.track` raised. -/
structure Frame where
  t : ℚ
  labels : List String
  trackerIds : Option (List ℤ)
  trackingRaises : Bool

/-- The mutable state of `detect_and_count`: the four persistent instance
attributes (`self.use_tracking`, `self.tracked_vehicles`,
`self.detection_counter`, `self.time_series_data`) together with the
per-call locals (`category_counts`, `current_second`, `second_counts`). -/
structure LoopState where
  use_tracking : Bool
  tracked_vehicles : Finset ℤ
  detection_counter : Nat
  time_series_data : List Bucket
  category_counts : List (Category × Nat)
  current_second : ℤ
  second_counts : SecondCounts

/-- The persistent instance attributes carried between `detect_and_count`
calls (`__init__` lines 45, 68-71). -/
structure Persist where
  use_tracking : Bool
  tracked_vehicles : Finset ℤ
  detection_counter : Nat
  time_series_data : List Bucket

/-- A fresh instance right after `__init__` (with the given
`use_tracking` flag as left by the `lap` availability check). -/
def initPersist (u : Bool) : Persist :=
  { use_tracking := u, tracked_vehicles := ∅, detection_counter := 0, time_series_data := [] }

/-- Per-call initialisation at the top of `detect_and_count` (lines 168-173):
locals start fresh, instance attributes carry over. -/
def initLoop (p : Persist) : LoopState :=
  { use_tracking := p.use_tracking
    tracked_vehicles := p.tracked_vehicles
    detection_counter := p.detection_counter
    time_series_data := p.time_series_data
    category_counts := []
    current_second := 0
    second_counts := SecondCounts.zero }

/-- Extract the persistent attributes after a call returns. -/
def persistOf (s : LoopState) : Persist :=
  { use_tracking := s.use_tracking
    tracked_vehicles := s.tracked_vehicles
    detection_counter := s.detection_counter
    time_series_data := s.time_series_data }

/-- `self.use_tracking` after the frame's try/except (lines 186-193): a
raise inside `model.track` (only reachable when tracking is on) clears the
flag for good. -/
def effTracking (s : LoopState) (f : Frame) : Bool :=
  s.use_tracking && !f.trackingRaises

/-- Identity resolution for one frame (lines 203-208): tracker ids verbatim
when tracking is (still) on and the tracker supplied ids; otherwise
`list(range(self.detection_counter, self.detection_counter + len(boxes)))`
and `self.detection_counter += len(boxes)`.  Returns the id list and the new
counter. -/
def frameIds (s : LoopState) (f : Frame) : List ℤ × Nat :=
  match (if effTracking s f then f.trackerIds else none) with
  | some ids => (ids, s.detection_counter)
  | none =>
      ((List.range f.labels.length).map (fun i => ((s.detection_counter + i : Nat) : ℤ)),
       s.detection_counter + f.labels.length)

/-- The dedup-ledger gate (lines 230-235): count the id only if it is not in
`self.tracked_vehicles`; on first sight insert it and bump both
`category_counts[category]` and `second_counts[plural]`. -/
def observe (tr : Finset ℤ) (cc : List (Category × Nat)) (sc : SecondCounts)
    (id : ℤ) (c : Category) : Finset ℤ × List (Category × Nat) × SecondCounts :=
  if id ∈ tr then (tr, cc, sc)
  else (insert id tr, bumpCount cc c, sc.bump c)

/-- Fold the dedup gate over a frame's (id, category) observations in order. -/
def obsFold (st : Finset ℤ × List (Category × Nat) × SecondCounts) :
    List (ℤ × Category) → Finset ℤ × List (Category × Nat) × SecondCounts
  | [] => st
  | d :: rest => obsFold (observe st.1 st.2.1 st.2.2 d.1 d.2) rest

/-- The (id, category) observations of one frame, in detection order:
`zip(boxes, track_ids, class_indices)` with `categorize_vehicle` applied to
each label. -/
def frameObs (s : LoopState) (f : Frame) : List (ℤ × Category) :=
  ((frameIds s f).1.zip f.labels).map (fun d => (d.1, categorize_vehicle d.2))

/-- State after the detection-processing part of one loop iteration
(lines 186-235), before the every-second logging check. -/
def afterDets (s : LoopState) (f : Frame) : LoopState :=
  { use_tracking := effTracking s f
    tracked_vehicles := (obsFold (s.tracked_vehicles, s.category_counts, s.second_counts)
        (frameObs s f)).1
    detection_counter := (frameIds s f).2
    time_series_data := s.time_series_data
    category_counts := (obsFold (s.tracked_vehicles, s.category_counts, s.second_counts)
        (frameObs s f)).2.1
    current_second := s.current_second
    second_counts := (obsFold (s.tracked_vehicles, s.category_counts, s.second_counts)
        (frameObs s f)).2.2 }

/-- One full iteration of the frame loop: detection processing, then the
"log data every second" check (lines 238-251): if
`int(current_time_in_video) > current_second`, append the row for the old
`current_second`, set `current_second` to the new floor, reset
`second_counts`. -/
def stepFrame (s : LoopState) (f : Frame) : LoopState :=
  if (afterDets s f).current_second < pyInt f.t then
    { afterDets s f with
        time_series_data := (afterDets s f).time_series_data ++
          [mkBucket (afterDets s f).current_second (afterDets s f).second_counts]
        current_second := pyInt f.t
        second_counts := SecondCounts.zero }
  else afterDets s f

/-- The unconditional final flush after the loop (lines 268-278). -/
def finalFlush (s : LoopState) : LoopState :=
  { s with time_series_data :=
      s.time_series_data ++ [mkBucket s.current_second s.second_counts] }

/-- Embeds one `detect_and_count` call on an instance in state `p`: per-call
init, the frame loop, and the final flush.  The returned DataFrame is
`(detect_and_count p frames).time_series_data` (built from the full
`self.time_series_data`, line 291) and the returned `category_counts` is
`(detect_and_count p frames).category_counts`. -/
def detect_and_count (p : Persist) (frames : List Frame) : LoopState :=
  finalFlush (frames.foldl stepFrame (initLoop p))

/-- Sum of one category's counts over a bucket list. -/
def sumBuckets (l : List Bucket) (c : Category) : Nat :=
  (l.map (fun b => b.getCat c)).sum

/-! ## Basic lemmas about the embedded operations -/

theorem afterDets_current_second (s : LoopState) (f : Frame) :
    (afterDets s f).current_second = s.current_second := rfl

theorem afterDets_time_series (s : LoopState) (f : Frame) :
    (afterDets s f).time_series_data = s.time_series_data := rfl

theorem stepFrame_current_second (s : LoopState) (f : Frame) :
    (stepFrame s f).current_second =
      if s.current_second < pyInt f.t then pyInt f.t else s.current_second := by
  simp only [stepFrame, afterDets_current_second]
  split <;> rfl

theorem stepFrame_time_series (s : LoopState) (f : Frame) :
    (stepFrame s f).time_series_data =
      if s.current_second < pyInt f.t then
        s.time_series_data ++ [mkBucket s.current_second (afterDets s f).second_counts]
      else s.time_series_data := by
  simp only [stepFrame, afterDets_current_second]
  split <;> rfl

theorem stepFrame_use_tracking (s : LoopState) (f : Frame) :
    (stepFrame s f).use_tracking = effTracking s f := by
  unfold stepFrame
  split <;> rfl

theorem stepFrame_tracked (s : LoopState) (f : Frame) :
    (stepFrame s f).tracked_vehicles = (afterDets s f).tracked_vehicles := by
  unfold stepFrame
  split <;> rfl

theorem stepFrame_counter (s : LoopState) (f : Frame) :
    (stepFrame s f).detection_counter = (frameIds s f).2 := by
  unfold stepFrame
  split <;> rfl

theorem stepFrame_category_counts (s : LoopState) (f : Frame) :
    (stepFrame s f).category_counts = (afterDets s f).category_counts := by
  unfold stepFrame
  split <;> rfl

theorem stepFrame_second_counts (s : LoopState) (f : Frame) :
    (stepFrame s f).second_counts =
      if s.current_second < pyInt f.t then SecondCounts.zero
      else (afterDets s f).second_counts := by
  simp only [stepFrame, afterDets_current_second]
  split <;> rfl

theorem getCount_bumpCount (cc : List (Category × Nat)) (k c : Category) :
    getCount (bumpCount cc k) c = getCount cc c + (if k = c then 1 else 0) := by
  induction cc with
  | nil => simp [bumpCount, getCount]
  | cons p rest ih =>
      obtain ⟨a, v⟩ := p
      by_cases hak : a = k
      · subst hak
        simp only [bumpCount, if_pos rfl, getCount]
        by_cases hac : a = c <;> simp [hac]
      · simp only [bumpCount, if_neg hak, getCount]
        by_cases hac : a = c
        · subst hac
          have hka : ¬ k = a := fun h => hak h.symm
          simp [hka]
        · simp [hac, ih]

theorem SecondCounts.get_bump (sc : SecondCounts) (k c : Category) :
    (sc.bump k).get c = sc.get c + (if k = c then 1 else 0) := by
  cases k <;> cases c <;> simp [SecondCounts.bump, SecondCounts.get]

theorem SecondCounts.get_zero (c : Category) : SecondCounts.zero.get c = 0 := by
  cases c <;> rfl

theorem mkBucket_getCat (cs : ℤ) (sc : SecondCounts) (c : Category) :
    (mkBucket cs sc).getCat c = sc.get c := by
  cases c <;> rfl

theorem mkBucket_time (cs : ℤ) (sc : SecondCounts) :
    (mkBucket cs sc).time_in_seconds = cs := rfl

theorem observe_mem {tr : Finset ℤ} {id : ℤ} (cc : List (Category × Nat))
    (sc : SecondCounts) (c : Category) (h : id ∈ tr) :
    observe tr cc sc id c = (tr, cc, sc) := by
  simp [observe, h]

theorem observe_not_mem {tr : Finset ℤ} {id : ℤ} (cc : List (Category × Nat))
    (sc : SecondCounts) (c : Category) (h : id ∉ tr) :
    observe tr cc sc id c = (insert id tr, bumpCount cc c, sc.bump c) := by
  simp [observe, h]

theorem observe_tracked_subset (tr : Finset ℤ) (cc : List (Category × Nat))
    (sc : SecondCounts) (id : ℤ) (c : Category) :
    tr ⊆ (observe tr cc sc id c).1 := by
  unfold observe
  split
  · exact Finset.Subset.refl tr
  · exact Finset.subset_insert id tr

theorem obsFold_tracked_subset (L : List (ℤ × Category)) :
    ∀ st : Finset ℤ × List (Category × Nat) × SecondCounts, st.1 ⊆ (obsFold st L).1 := by
  induction L with
  | nil => intro st; exact Finset.Subset.refl _
  | cons d rest ih =>
      intro st
      exact Finset.Subset.trans (observe_tracked_subset st.1 st.2.1 st.2.2 d.1 d.2)
        (ih (observe st.1 st.2.1 st.2.2 d.1 d.2))

theorem obsFold_noop (L : List (ℤ × Category)) :
    ∀ st : Finset ℤ × List (Category × Nat) × SecondCounts,
      (∀ d ∈ L, d.1 ∈ st.1) → obsFold st L = st := by
  induction L with
  | nil => intro st _; rfl
  | cons d rest ih =>
      intro st h
      have hd : d.1 ∈ st.1 := h d (List.mem_cons_self d rest)
      have hobs : observe st.1 st.2.1 st.2.2 d.1 d.2 = st := by
        rw [observe_mem _ _ _ hd]
      show obsFold (observe st.1 st.2.1 st.2.2 d.1 d.2) rest = st
      rw [hobs]
      exact ih st (fun e he => h e (List.mem_cons_of_mem d he))

theorem observe_conserve (tr : Finset ℤ) (cc : List (Category × Nat)) (sc : SecondCounts)
    (id : ℤ) (k c : Category) :
    getCount (observe tr cc sc id k).2.1 c + sc.get c =
      getCount cc c + ((observe tr cc sc id k).2.2).get c := by
  unfold observe
  split
  · rfl
  · simp only [getCount_bumpCount, SecondCounts.get_bump]
    omega

theorem obsFold_conserve (L : List (ℤ × Category)) :
    ∀ (st : Finset ℤ × List (Category × Nat) × SecondCounts) (c : Category),
      getCount (obsFold st L).2.1 c + st.2.2.get c =
        getCount st.2.1 c + ((obsFold st L).2.2).get c := by
  induction L with
  | nil => intro st c; rfl
  | cons d rest ih =>
      intro st c
      have h1 := observe_conserve st.1 st.2.1 st.2.2 d.1 d.2 c
      have h2 := ih (observe st.1 st.2.1 st.2.2 d.1 d.2) c
      show getCount (obsFold (observe st.1 st.2.1 st.2.2 d.1 d.2) rest).2.1 c + st.2.2.get c =
        getCount st.2.1 c + ((obsFold (observe st.1 st.2.1 st.2.2 d.1 d.2) rest).2.2).get c
      omega

theorem sumBuckets_append (l1 l2 : List Bucket) (c : Category) :
    sumBuckets (l1 ++ l2) c = sumBuckets l1 c + sumBuckets l2 c := by
  simp [sumBuckets]

/-! ## Bucket-index trace lemmas (for the ordering of emitted buckets) -/

/-- The bucket indices emitted so far, followed by the open bucket's index. -/
def idxTrace (s : LoopState) : List ℤ :=
  s.time_series_data.map Bucket.time_in_seconds ++ [s.current_second]

theorem idxTrace_ne_nil (s : LoopState) : idxTrace s ≠ [] := by
  simp [idxTrace]

theorem idxTrace_getLast (s : LoopState) : (idxTrace s).getLast? = some s.current_second :=
  List.getLast?_concat _

theorem head_append_singleton (l : List ℤ) (a b : ℤ) :
    ((l ++ [a]) ++ [b]).head? = (l ++ [a]).head? := by
  cases l with
  | nil => rfl
  | cons x xs => rfl

theorem idxTrace_step (s : LoopState) (f : Frame) :
    idxTrace (stepFrame s f) =
      if s.current_second < pyInt f.t then idxTrace s ++ [pyInt f.t] else idxTrace s := by
  unfold idxTrace
  rw [stepFrame_time_series, stepFrame_current_second]
  split
  · simp [mkBucket]
  · rfl

theorem idxTrace_step_chain (s : LoopState) (f : Frame)
    (h : (idxTrace s).Chain' (· < ·)) : (idxTrace (stepFrame s f)).Chain' (· < ·) := by
  rw [idxTrace_step]
  split
  · rw [List.chain'_append]
    refine ⟨h, List.chain'_singleton _, ?_⟩
    intro x hx y hy
    rw [idxTrace_getLast] at hx
    simp only [Option.mem_def, Option.some.injEq] at hx
    simp only [List.head?_cons, Option.mem_def, Option.some.injEq] at hy
    subst hx
    subst hy
    assumption
  · exact h

theorem idxTrace_step_head (s : LoopState) (f : Frame) :
    (idxTrace (stepFrame s f)).head? = (idxTrace s).head? := by
  rw [idxTrace_step]
  split
  · exact head_append_singleton _ _ _
  · rfl

theorem idxTrace_fold (frames : List Frame) :
    ∀ s : LoopState,
      ((idxTrace s).Chain' (· < ·) →
        (idxTrace (frames.foldl stepFrame s)).Chain' (· < ·)) ∧
      (idxTrace (frames.foldl stepFrame s)).head? = (idxTrace s).head? := by
  induction frames with
  | nil => intro s; exact ⟨fun h => h, rfl⟩
  | cons f rest ih =>
      intro s
      constructor
      · intro h
        exact ((ih (stepFrame s f)).1 (idxTrace_step_chain s f h))
      · rw [List.foldl_cons, (ih (stepFrame s f)).2, idxTrace_step_head]

theorem detect_map_time (p : Persist) (frames : List Frame) :
    (detect_and_count p frames).time_series_data.map Bucket.time_in_seconds =
      idxTrace (frames.foldl stepFrame (initLoop p)) := by
  simp [detect_and_count, finalFlush, idxTrace, mkBucket]

/-! ## Evolution of `current_second` across the loop -/

theorem fold_current_second (frames : List Frame) :
    ∀ s : LoopState,
      (frames.foldl stepFrame s).current_second =
        frames.foldl (fun c f => max c (pyInt f.t)) s.current_second := by
  induction frames with
  | nil => intro s; rfl
  | cons f rest ih =>
      intro s
      rw [List.foldl_cons, List.foldl_cons, ih, stepFrame_current_second]
      congr 1
      rcases lt_or_ge s.current_second (pyInt f.t) with h | h
      · rw [if_pos h, max_eq_right (le_of_lt h)]
      · rw [if_neg (not_lt.mpr h), max_eq_left h]

theorem le_foldl_max (l : List ℤ) : ∀ a : ℤ, a ≤ l.foldl max a := by
  induction l with
  | nil => intro a; exact le_refl a
  | cons x xs ih =>
      intro a
      exact le_trans (le_max_left a x) (ih (max a x))

theorem mem_le_foldl_max (l : List ℤ) :
    ∀ (a x : ℤ), x ∈ l → x ≤ l.foldl max a := by
  induction l with
  | nil => intro a x hx; cases hx
  | cons y ys ih =>
      intro a x hx
      rcases List.mem_cons.mp hx with h | h
      · subst h
        exact le_trans (le_max_right a x) (le_foldl_max ys (max a x))
      · exact ih (max a y) x h

theorem foldl_max_le (l : List ℤ) :
    ∀ (a b : ℤ), a ≤ b → (∀ x ∈ l, x ≤ b) → l.foldl max a ≤ b := by
  induction l with
  | nil => intro a b ha _; exact ha
  | cons y ys ih =>
      intro a b ha h
      exact ih (max a y) b (max_le ha (h y (List.mem_cons_self y ys)))
        (fun x hx => h x (List.mem_cons_of_mem y hx))

theorem foldl_max_eq (l : List ℤ) (a b : ℤ) (ha : a ≤ b) (hb : b ∈ l)
    (h : ∀ x ∈ l, x ≤ b) : l.foldl max a = b :=
  le_antisymm (foldl_max_le l a b ha h) (mem_le_foldl_max l a b hb)

/-! ## `pyInt` arithmetic -/

theorem pyInt_of_nonneg {q : ℚ} (h : 0 ≤ q) : pyInt q = ⌊q⌋ := if_pos h

theorem pyInt_nonneg {q : ℚ} (h : 0 ≤ q) : 0 ≤ pyInt q := by
  rw [pyInt_of_nonneg h]
  exact Int.floor_nonneg.mpr h

theorem pyInt_mono {a b : ℚ} (ha : 0 ≤ a) (hab : a ≤ b) : pyInt a ≤ pyInt b := by
  rw [pyInt_of_nonneg ha, pyInt_of_nonneg (le_trans ha hab)]
  exact Int.floor_le_floor hab

/-! ## Ordered-list helpers -/

theorem getLast_mem_self {α : Type} (l : List α) (a : α) (h : l.getLast? = some a) :
    a ∈ l := by
  induction l with
  | nil => cases h
  | cons x xs ih =>
      cases xs with
      | nil =>
          simp only [List.getLast?_singleton, Option.some.injEq] at h
          subst h
          exact List.mem_singleton_self _
      | cons y ys =>
          rw [List.getLast?_cons_cons] at h
          exact List.mem_cons_of_mem x (ih h)

theorem pairwise_le_getLast (l : List ℚ) (b : ℚ) (h : l.Pairwise (· ≤ ·))
    (hb : l.getLast? = some b) : ∀ x ∈ l, x ≤ b := by
  induction l with
  | nil => intro x hx; cases hx
  | cons a rest ih =>
      intro x hx
      cases rest with
      | nil =>
          simp only [List.getLast?_singleton, Option.some.injEq] at hb
          subst hb
          rcases List.mem_cons.mp hx with h1 | h1
          · exact le_of_eq h1
          · cases h1
      | cons y ys =>
          rw [List.getLast?_cons_cons] at hb
          rcases List.mem_cons.mp hx with h1 | h1
          · subst h1
            exact (List.pairwise_cons.mp h).1 b (getLast_mem_self _ _ hb)
          · exact ih (List.pairwise_cons.mp h).2 hb x h1

/-! ## More projections of `afterDets` -/

theorem afterDets_cc (s : LoopState) (f : Frame) :
    (afterDets s f).category_counts =
      (obsFold (s.tracked_vehicles, s.category_counts, s.second_counts) (frameObs s f)).2.1 :=
  rfl

theorem afterDets_sc (s : LoopState) (f : Frame) :
    (afterDets s f).second_counts =
      (obsFold (s.tracked_vehicles, s.category_counts, s.second_counts) (frameObs s f)).2.2 :=
  rfl

theorem afterDets_tracked (s : LoopState) (f : Frame) :
    (afterDets s f).tracked_vehicles =
      (obsFold (s.tracked_vehicles, s.category_counts, s.second_counts) (frameObs s f)).1 :=
  rfl

theorem sumBuckets_singleton (b : Bucket) (c : Category) :
    sumBuckets [b] c = b.getCat c := by
  simp [sumBuckets]

/-! ## The conservation invariant -/

theorem conserve_step (s : LoopState) (f : Frame)
    (h : ∀ c, sumBuckets s.time_series_data c + s.second_counts.get c =
      getCount s.category_counts c) :
    ∀ c, sumBuckets (stepFrame s f).time_series_data c +
        (stepFrame s f).second_counts.get c =
      getCount (stepFrame s f).category_counts c := by
  intro c
  have hc := obsFold_conserve (frameObs s f)
    (s.tracked_vehicles, s.category_counts, s.second_counts) c
  dsimp only at hc
  have hs := h c
  rw [stepFrame_time_series, stepFrame_second_counts, stepFrame_category_counts,
    afterDets_cc, afterDets_sc]
  by_cases hlt : s.current_second < pyInt f.t
  · rw [if_pos hlt, if_pos hlt, sumBuckets_append, sumBuckets_singleton, mkBucket_getCat,
      SecondCounts.get_zero]
    omega
  · rw [if_neg hlt, if_neg hlt]
    omega

theorem conserve_fold (frames : List Frame) :
    ∀ s : LoopState,
      (∀ c, sumBuckets s.time_series_data c + s.second_counts.get c =
        getCount s.category_counts c) →
      ∀ c, sumBuckets (frames.foldl stepFrame s).time_series_data c +
          (frames.foldl stepFrame s).second_counts.get c =
        getCount (frames.foldl stepFrame s).category_counts c := by
  induction frames with
  | nil => exact fun s h => h
  | cons f rest ih =>
      intro s h
      exact ih (stepFrame s f) (conserve_step s f h)

/-! ## Appending-only growth of the time series, and monotone state -/

theorem fold_tsd_extends (frames : List Frame) :
    ∀ s : LoopState, ∃ l,
      (frames.foldl stepFrame s).time_series_data = s.time_series_data ++ l := by
  induction frames with
  | nil => exact fun s => ⟨[], by simp⟩
  | cons f rest ih =>
      intro s
      obtain ⟨l, hl⟩ := ih (stepFrame s f)
      rw [List.foldl_cons] at *
      rw [hl, stepFrame_time_series]
      by_cases hlt : s.current_second < pyInt f.t
      · rw [if_pos hlt]
        exact ⟨[mkBucket s.current_second (afterDets s f).second_counts] ++ l,
          List.append_assoc _ _ _⟩
      · rw [if_neg hlt]
        exact ⟨l, rfl⟩

theorem fold_tracked_mono (frames : List Frame) :
    ∀ s : LoopState,
      s.tracked_vehicles ⊆ (frames.foldl stepFrame s).tracked_vehicles := by
  induction frames with
  | nil => exact fun s => Finset.Subset.refl _
  | cons f rest ih =>
      intro s
      refine Finset.Subset.trans ?_ (ih (stepFrame s f))
      rw [stepFrame_tracked, afterDets_tracked]
      exact obsFold_tracked_subset (frameObs s f)
        (s.tracked_vehicles, s.category_counts, s.second_counts)

theorem frameIds_counter_le (s : LoopState) (f : Frame) :
    s.detection_counter ≤ (frameIds s f).2 := by
  unfold frameIds
  split
  · exact le_refl _
  · exact Nat.le_add_right _ _

theorem fold_counter_mono (frames : List Frame) :
    ∀ s : LoopState,
      s.detection_counter ≤ (frames.foldl stepFrame s).detection_counter := by
  induction frames with
  | nil => exact fun s => le_refl _
  | cons f rest ih =>
      intro s
      refine le_trans ?_ (ih (stepFrame s f))
      rw [stepFrame_counter]
      exact frameIds_counter_le s f

/-! ## When every id of every frame is already tracked, nothing new is counted -/

theorem fold_no_new (frames : List Frame) :
    ∀ s : LoopState, s.use_tracking = true →
      (∀ f ∈ frames, f.trackingRaises = false ∧
        ∃ ids, f.trackerIds = some ids ∧ ∀ i ∈ ids, i ∈ s.tracked_vehicles) →
      (frames.foldl stepFrame s).category_counts = s.category_counts ∧
      (frames.foldl stepFrame s).tracked_vehicles = s.tracked_vehicles ∧
      (frames.foldl stepFrame s).use_tracking = true := by
  induction frames with
  | nil => exact fun s hu _ => ⟨rfl, rfl, hu⟩
  | cons f rest ih =>
      intro s hu h
      obtain ⟨hraise, ids, hids, hmem⟩ := h f (List.mem_cons_self f rest)
      have heff : effTracking s f = true := by simp [effTracking, hu, hraise]
      have hfid : (frameIds s f).1 = ids := by simp [frameIds, heff, hids]
      have hnoop : obsFold (s.tracked_vehicles, s.category_counts, s.second_counts)
          (frameObs s f) = (s.tracked_vehicles, s.category_counts, s.second_counts) := by
        apply obsFold_noop
        intro d hd
        obtain ⟨e, he, hde⟩ := List.mem_map.mp hd
        have h1 : e.1 ∈ (frameIds s f).1 := (List.of_mem_zip he).1
        rw [hfid] at h1
        subst hde
        exact hmem e.1 h1
      have hstep_cc : (stepFrame s f).category_counts = s.category_counts := by
        rw [stepFrame_category_counts, afterDets_cc, hnoop]
      have hstep_tr : (stepFrame s f).tracked_vehicles = s.tracked_vehicles := by
        rw [stepFrame_tracked, afterDets_tracked, hnoop]
      have hstep_ut : (stepFrame s f).use_tracking = true := by
        rw [stepFrame_use_tracking]
        exact heff
      have hrec := ih (stepFrame s f) hstep_ut (by
        intro g hg
        obtain ⟨hr, ids2, hi2, hm2⟩ := h g (List.mem_cons_of_mem f hg)
        exact ⟨hr, ids2, hi2, fun i hi => by rw [hstep_tr]; exact hm2 i hi⟩)
      rw [List.foldl_cons]
      exact ⟨hrec.1.trans hstep_cc, hrec.2.1.trans hstep_tr, hrec.2.2⟩

/-! ## Final flush projections -/

theorem finalFlush_tsd (s : LoopState) :
    (finalFlush s).time_series_data =
      s.time_series_data ++ [mkBucket s.current_second s.second_counts] := rfl

theorem finalFlush_cc (s : LoopState) :
    (finalFlush s).category_counts = s.category_counts := rfl

/-! ## Specification of Python `max` over the insertion-ordered dict -/

theorem pyMaxAux_spec (l : List (Category × Nat)) :
    ∀ (bk : Category) (bv : Nat),
      ∃ c, pyMaxAux bk bv l = c ∧
        ((c = bk ∧ ∀ p ∈ l, p.2 ≤ bv) ∨
         (∃ l₁ v l₂, l = l₁ ++ (c, v) :: l₂ ∧ bv < v ∧
           (∀ p ∈ l₁, p.2 < v) ∧ (∀ p ∈ l₂, p.2 ≤ v))) := by
  induction l with
  | nil =>
      intro bk bv
      exact ⟨bk, rfl, Or.inl ⟨rfl, fun p hp => absurd hp (List.not_mem_nil p)⟩⟩
  | cons q rest ih =>
      intro bk bv
      obtain ⟨k, v⟩ := q
      by_cases hv : bv < v
      · obtain ⟨c, hc, hcase⟩ := ih k v
        refine ⟨c, by simp [pyMaxAux, hv, hc], ?_⟩
        rcases hcase with ⟨rfl, hle⟩ | ⟨l₁, w, l₂, hsplit, hvw, hbef, haft⟩
        · right
          exact ⟨[], v, rest, rfl, hv, fun p hp => absurd hp (List.not_mem_nil p), hle⟩
        · right
          refine ⟨(k, v) :: l₁, w, l₂, by simp [hsplit], lt_trans hv hvw, ?_, haft⟩
          intro p hp
          rcases List.mem_cons.mp hp with rfl | hp2
          · exact hvw
          · exact hbef p hp2
      · obtain ⟨c, hc, hcase⟩ := ih bk bv
        refine ⟨c, by simp [pyMaxAux, hv, hc], ?_⟩
        rcases hcase with ⟨rfl, hle⟩ | ⟨l₁, w, l₂, hsplit, hvw, hbef, haft⟩
        · left
          refine ⟨rfl, fun p hp => ?_⟩
          rcases List.mem_cons.mp hp with rfl | hp2
          · exact not_lt.mp hv
          · exact hle p hp2
        · right
          refine ⟨(k, v) :: l₁, w, l₂, by simp [hsplit], hvw, ?_, haft⟩
          intro p hp
          rcases List.mem_cons.mp hp with rfl | hp2
          · exact lt_of_le_of_lt (not_lt.mp hv) hvw
          · exact hbef p hp2

/-! ## Percentage arithmetic helpers -/

theorem map_div_mul_sum (l : List (Category × Nat)) (T : ℚ) :
    (l.map (fun p => ((p.2 : ℚ) / T) * 100)).sum =
      (l.map (fun p => ((p.2 : ℚ)))).sum / T * 100 := by
  induction l with
  | nil => simp
  | cons p rest ih =>
      simp only [List.map_cons, List.sum_cons, ih]
      ring

theorem sum_snd_cast (l : List (Category × Nat)) :
    (l.map (fun p => ((p.2 : ℚ)))).sum = (((l.map Prod.snd).sum : Nat) : ℚ) := by
  induction l with
  | nil => simp
  | cons p rest ih => simp [ih]

/-! ## Concrete inputs used by counterexamples and witnesses -/

/-- A frame at stream time 1/2 with no detections. -/
def cexC1FrameA : Frame :=
  { t := ⟨1, 2, by decide, by decide⟩, labels := [], trackerIds := none, trackingRaises := false }

/-- A frame at stream time 27/5 (= 5.4) with no detections. -/
def cexC1FrameB : Frame :=
  { t := ⟨27, 5, by decide, by decide⟩, labels := [], trackerIds := none, trackingRaises := false }

/-- A frame at stream time 1/10 where the tracker supplies id 0 for one car. -/
def cexC3Frame1 : Frame :=
  { t := ⟨1, 10, by decide, by decide⟩, labels := ["car"], trackerIds := some [0],
    trackingRaises := false }

/-- A frame at stream time 1/5 where `model.track` raises, with one car detected. -/
def cexC3Frame2 : Frame :=
  { t := ⟨1, 5, by decide, by decide⟩, labels := ["car"], trackerIds := none,
    trackingRaises := true }

/-- A detection-only frame with one car and no tracker ids. -/
def cexC3WitFrame : Frame :=
  { t := ⟨1, 10, by decide, by decide⟩, labels := ["car"], trackerIds := none,
    trackingRaises := false }

/-- A frame at stream time 29/10 (= 2.9) with no detections. -/
def cexC4Frame1 : Frame :=
  { t := ⟨29, 10, by decide, by decide⟩, labels := [], trackerIds := none,
    trackingRaises := false }

/-- A frame at stream time 31/10 (= 3.1) with one newly seen bus. -/
def cexC4Frame2 : Frame :=
  { t := ⟨31, 10, by decide, by decide⟩, labels := ["bus"], trackerIds := none,
    trackingRaises := false }

/-- A frame observing a bus first, then a car (detection-only ids 0, 1). -/
def cexC7FrameBC : Frame :=
  { t := ⟨1, 10, by decide, by decide⟩, labels := ["bus", "car"], trackerIds := none,
    trackingRaises := false }

/-- A frame observing a car first, then a bus (detection-only ids 0, 1). -/
def cexC7FrameCB : Frame :=
  { t := ⟨1, 10, by decide, by decide⟩, labels := ["car", "bus"], trackerIds := none,
    trackingRaises := false }

/-- A tracking frame with one car carrying tracker id 7. -/
def cexC9Frame : Frame :=
  { t := ⟨1, 10, by decide, by decide⟩, labels := ["car"], trackerIds := some [7],
    trackingRaises := false }

/-! ## Claim theorems -/

/-- C2 (code bug evaluated at the failing input): for the empty stream the loop
itself is benign — the final flush emits exactly one all-zero bucket at index 0
and `category_counts` is empty — but building the report then fails:
`_generate_summary` reads `percentages['car']` out of a `percentages` dict built
only from the (empty) `category_counts`, so Python raises `KeyError` instead of
producing the total-0 report with all-zero percentages that the claim (and the
dead `else: percentages[category] = 0` branch) intends. -/
theorem C2_empty_stream :
    (detect_and_count (initPersist true) []).time_series_data =
      [{ time_in_seconds := 0, cars := 0, bikes := 0, buses := 0, trucks := 0,
         others := 0, total := 0 }] ∧
    (detect_and_count (initPersist true) []).category_counts = [] ∧
    summaryPercentages ((detect_and_count (initPersist true) []).category_counts) = none := by
  decide

/-- C3 counterexample: the tracker supplies id 0 in frame 1; tracking fails in
frame 2, and the synthetic id issued there is again 0 (the detection counter
starts at 0, independent of tracker id values), so a previously tracked id is
reissued as a synthetic id — and the (distinct) frame-2 entity is silently
dropped by the dedup ledger (`category_counts` stays at one car). -/
theorem C3_counterexample :
    cexC3Frame1.trackerIds = some [0] ∧
    (0 : ℤ) ∈ (stepFrame (initLoop (initPersist true)) cexC3Frame1).tracked_vehicles ∧
    frameIds (stepFrame (initLoop (initPersist true)) cexC3Frame1) cexC3Frame2 = ([0], 1) ∧
    (stepFrame (stepFrame (initLoop (initPersist true)) cexC3Frame1)
        cexC3Frame2).category_counts = [(Category.car, 1)] ∧
    (stepFrame (stepFrame (initLoop (initPersist true)) cexC3Frame1)
        cexC3Frame2).use_tracking = false := by
  decide

/-- C3 (amended): after a tracking failure the flag is cleared for the rest of
the session (the final flag is the initial flag AND "no frame raised"), and
whenever tracking is off or the tracker supplied no ids, the synthetic ids for a
frame are exactly the next `len(boxes)` values of the session's detection
counter, which advances by `len(boxes)`.  (The amendment drops the claim's "no
tracker-supplied id is ever reissued as a synthetic id": the counter is
independent of tracker id values, so collisions can occur — see the
counterexample.) -/
theorem C3_downgrade_and_counter :
    (∀ (s : LoopState) (frames : List Frame),
        (frames.foldl stepFrame s).use_tracking =
          (s.use_tracking && frames.all (fun f => !f.trackingRaises))) ∧
    (∀ (s : LoopState) (f : Frame),
        effTracking s f = false ∨ f.trackerIds = none →
        frameIds s f =
          ((List.range f.labels.length).map
            (fun i => ((s.detection_counter + i : Nat) : ℤ)),
           s.detection_counter + f.labels.length)) := by
  constructor
  · intro s frames
    induction frames generalizing s with
    | nil => simp
    | cons f rest ih =>
        rw [List.foldl_cons, ih, stepFrame_use_tracking]
        simp [effTracking, Bool.and_assoc]
  · intro s f h
    rcases h with h | h
    · simp [frameIds, h]
    · simp [frameIds, h]

/-- C3 witness: on a detection-only frame with one label and a fresh counter,
the resolver issues exactly the synthetic id list `[0]` and advances the
counter to 1. -/
theorem C3_downgrade_witness :
    frameIds (initLoop (initPersist false)) cexC3WitFrame =
      ((List.range cexC3WitFrame.labels.length).map
        (fun i => (((initLoop (initPersist false)).detection_counter + i : Nat) : ℤ)),
       (initLoop (initPersist false)).detection_counter + cexC3WitFrame.labels.length) :=
  C3_downgrade_and_counter.2 _ _ (Or.inr rfl)

/-- C4 counterexample: with a frame at t = 2.9 (no detections) followed by a
frame at t = 3.1 containing one new bus, the code emits bucket 2 with total 1
(the t = 3.1 entity is counted into `second_counts` before the flush) and
bucket 3 with total 0 — not the claimed "bucket 2 carries only the prior
accumulation (0) and the t = 3.1 entity starts bucket 3 (1)". -/
theorem C4_counterexample :
    pyInt cexC4Frame1.t = 2 ∧
    pyInt cexC4Frame2.t = 3 ∧
    ((detect_and_count (initPersist false) [cexC4Frame1, cexC4Frame2]).time_series_data.map
        (fun b => (b.time_in_seconds, b.total))) = [(0, 0), (2, 1), (3, 0)] ∧
    ((detect_and_count (initPersist false) [cexC4Frame1, cexC4Frame2]).time_series_data.map
        (fun b => (b.time_in_seconds, b.total))) ≠ [(0, 0), (2, 0), (3, 1)] := by
  decide

/-- C4 (amended): when a frame's stream time crosses an integer boundary, the
frame's newly seen entities are credited to the still-open bucket first, and
the bucket flushed at the old index therefore includes them
(`(afterDets s f).second_counts` is the accumulation after this frame's
detections); the fresh bucket that begins at the new index starts all-zero. -/
theorem C4_crossing_flush (s : LoopState) (f : Frame)
    (h : s.current_second < pyInt f.t) :
    (stepFrame s f).time_series_data =
      s.time_series_data ++ [mkBucket s.current_second (afterDets s f).second_counts] ∧
    (stepFrame s f).second_counts = SecondCounts.zero ∧
    (stepFrame s f).current_second = pyInt f.t :=
  ⟨by rw [stepFrame_time_series, if_pos h],
   by rw [stepFrame_second_counts, if_pos h],
   by rw [stepFrame_current_second, if_pos h]⟩

/-- C4 witness: the crossing behaviour evaluated at the concrete t = 3.1 frame
from a fresh state (current bucket 0). -/
theorem C4_crossing_flush_witness :
    (stepFrame (initLoop (initPersist false)) cexC4Frame2).time_series_data =
      (initLoop (initPersist false)).time_series_data ++
        [mkBucket (initLoop (initPersist false)).current_second
          (afterDets (initLoop (initPersist false)) cexC4Frame2).second_counts] ∧
    (stepFrame (initLoop (initPersist false)) cexC4Frame2).second_counts =
      SecondCounts.zero ∧
    (stepFrame (initLoop (initPersist false)) cexC4Frame2).current_second =
      pyInt cexC4Frame2.t :=
  C4_crossing_flush _ _ (by decide)

/-- C5: the dedup gate is idempotent — observing the same id N > 1 times
(first with category `c`, then any further categories) produces exactly the
state of a single observation: the seen set gains exactly one element, the
first-seen category's total and per-second count rise by exactly 1, every
other category total is unchanged, and the later observations (even with a
different category) change nothing. -/
theorem C5_dedup_idempotent (tr : Finset ℤ) (cc : List (Category × Nat))
    (sc : SecondCounts) (id : ℤ) (c : Category) (later : List Category)
    (h : id ∉ tr) :
    obsFold (tr, cc, sc) ((c :: later).map (fun k => (id, k))) =
      (insert id tr, bumpCount cc c, sc.bump c) ∧
    (insert id tr).card = tr.card + 1 ∧
    getCount (bumpCount cc c) c = getCount cc c + 1 ∧
    (∀ k, k ≠ c → getCount (bumpCount cc c) k = getCount cc k) := by
  refine ⟨?_, Finset.card_insert_of_not_mem h, ?_, ?_⟩
  · calc obsFold (tr, cc, sc) ((c :: later).map (fun k => (id, k)))
        = obsFold (observe tr cc sc id c) (later.map (fun k => (id, k))) := rfl
      _ = obsFold (insert id tr, bumpCount cc c, sc.bump c)
            (later.map (fun k => (id, k))) := by rw [observe_not_mem _ _ _ h]
      _ = (insert id tr, bumpCount cc c, sc.bump c) := by
            apply obsFold_noop
            intro d hd
            obtain ⟨k, hk, rfl⟩ := List.mem_map.mp hd
            exact Finset.mem_insert_self id tr
  · rw [getCount_bumpCount]
    simp
  · intro k hk
    rw [getCount_bumpCount]
    have hck : ¬ c = k := fun hh => hk hh.symm
    simp [hck]

/-- C5 witness: a fresh ledger observing id 5 twice, first as a car and then
(re-categorised) as a bus, ends in exactly the one-car state. -/
theorem C5_dedup_witness :
    obsFold (∅, [], SecondCounts.zero)
        ((Category.car :: [Category.bus]).map (fun k => ((5 : ℤ), k))) =
      (insert (5 : ℤ) ∅, bumpCount [] Category.car,
        SecondCounts.zero.bump Category.car) ∧
    (insert (5 : ℤ) (∅ : Finset ℤ)).card = (∅ : Finset ℤ).card + 1 ∧
    getCount (bumpCount [] Category.car) Category.car =
      getCount [] Category.car + 1 ∧
    (∀ k, k ≠ Category.car →
      getCount (bumpCount [] Category.car) k = getCount [] k) :=
  C5_dedup_idempotent ∅ [] SecondCounts.zero 5 Category.car [Category.bus] (by decide)

/-- C10: `categorize_vehicle` maps each table key to its fixed category
('car' to the primary category, 'bicycle'/'motorcycle' to two-wheeled, 'bus'
to bus-class, 'truck' to truck-class, 'train' to other), is case-insensitive
(it depends only on the lowercased label), and sends every label outside the
table to `others`; being a total Lean function it never fails. -/
theorem C10_categorize :
    categorize_vehicle "car" = Category.car ∧
    categorize_vehicle "bicycle" = Category.bike ∧
    categorize_vehicle "motorcycle" = Category.bike ∧
    categorize_vehicle "bus" = Category.bus ∧
    categorize_vehicle "truck" = Category.truck ∧
    categorize_vehicle "train" = Category.others ∧
    (∀ s1 s2 : String, pyLower s1 = pyLower s2 →
        categorize_vehicle s1 = categorize_vehicle s2) ∧
    (∀ s : String,
        pyLower s ∉ (["bicycle", "car", "motorcycle", "bus", "train", "truck"] :
          List String) →
        categorize_vehicle s = Category.others) := by
  refine ⟨by decide, by decide, by decide, by decide, by decide, by decide, ?_, ?_⟩
  · intro s1 s2 h
    simp only [categorize_vehicle]
    rw [h]
  · intro s h
    simp only [List.mem_cons, List.not_mem_nil, or_false, not_or] at h
    obtain ⟨h1, h2, h3, h4, h5, h6⟩ := h
    simp only [categorize_vehicle]
    simp [h1, h2, h3, h4, h5, h6]

/-- C10 witness: case-insensitivity applied at the concrete label "TRUCK". -/
theorem C10_categorize_witness : categorize_vehicle "TRUCK" = Category.truck := by
  have h := C10_categorize
  have h7 := h.2.2.2.2.2.2.1 "TRUCK" "truck" (by decide)
  rw [h7]
  exact h.2.2.2.2.1

/-- C1 counterexample: frames at stream times 1/2 and 27/5 (so floor(t_n) = 5)
produce the bucket index sequence [0, 5]: strictly increasing but with the
integer indices 1-4 missing — the code appends a single bucket per crossing
(lines 238-251) and never emits zero-filled buckets for skipped indices, so
the emitted indices are not `0, 1, …, floor(t_n)`. -/
theorem C1_counterexample :
    pyInt cexC1FrameB.t = 5 ∧
    ((detect_and_count (initPersist false) [cexC1FrameA, cexC1FrameB]).time_series_data.map
        Bucket.time_in_seconds) = [0, 5] ∧
    ((detect_and_count (initPersist false) [cexC1FrameA, cexC1FrameB]).time_series_data.map
        Bucket.time_in_seconds) ≠ [0, 1, 2, 3, 4, 5] := by
  decide

/-- C1 (amended): for any sequence of frames with non-decreasing non-negative
stream times followed by the unconditional final flush, the emitted bucket
time indices are strictly increasing (hence no duplicates), the first index
is 0, and the last index is floor of the final frame's stream time (0 for an
empty stream) — but skipped integer indices are simply absent, they are not
emitted as all-zero buckets. -/
theorem C1_bucket_indices (u : Bool) (frames : List Frame)
    (hmono : (frames.map Frame.t).Chain' (· ≤ ·))
    (hnn : ∀ f ∈ frames, 0 ≤ f.t) :
    ((detect_and_count (initPersist u) frames).time_series_data.map
        Bucket.time_in_seconds).Chain' (· < ·) ∧
    ((detect_and_count (initPersist u) frames).time_series_data.map
        Bucket.time_in_seconds).head? = some 0 ∧
    ((detect_and_count (initPersist u) frames).time_series_data.map
        Bucket.time_in_seconds).getLast? =
      some (Option.elim frames.getLast? 0 (fun f => pyInt f.t)) := by
  rw [detect_map_time]
  have hfold := idxTrace_fold frames (initLoop (initPersist u))
  have hinit_chain : (idxTrace (initLoop (initPersist u))).Chain' (· < ·) := by
    simp [idxTrace, initLoop, initPersist]
  refine ⟨hfold.1 hinit_chain, ?_, ?_⟩
  · rw [hfold.2]
    simp [idxTrace, initLoop, initPersist]
  · rw [idxTrace_getLast]
    congr 1
    rw [fold_current_second]
    show frames.foldl (fun c f => max c (pyInt f.t)) 0 =
      Option.elim frames.getLast? 0 (fun f => pyInt f.t)
    cases hfr : frames.getLast? with
    | none =>
        have hnil : frames = [] := List.getLast?_eq_none_iff.mp hfr
        subst hnil
        rfl
    | some g =>
        show frames.foldl (fun c f => max c (pyInt f.t)) 0 = pyInt g.t
        rw [← List.foldl_map (fun f => pyInt f.t) max frames 0]
        have hg : g ∈ frames := getLast_mem_self frames g hfr
        apply foldl_max_eq
        · exact pyInt_nonneg (hnn g hg)
        · exact List.mem_map_of_mem _ hg
        · intro x hx
          obtain ⟨f, hf, rfl⟩ := List.mem_map.mp hx
          have hpair : (frames.map Frame.t).Pairwise (· ≤ ·) :=
            List.chain'_iff_pairwise.mp hmono
          have hlast : (frames.map Frame.t).getLast? = some g.t := by
            rw [List.getLast?_map, hfr]
            rfl
          have hle := pairwise_le_getLast _ _ hpair hlast f.t
            (List.mem_map_of_mem _ hf)
          exact pyInt_mono (hnn f hf) hle

/-- C1 witness: the amended bucket-index property evaluated on the empty
stream, whose hypotheses hold trivially. -/
theorem C1_bucket_indices_witness :
    ((detect_and_count (initPersist true) []).time_series_data.map
        Bucket.time_in_seconds).Chain' (· < ·) ∧
    ((detect_and_count (initPersist true) []).time_series_data.map
        Bucket.time_in_seconds).head? = some 0 ∧
    ((detect_and_count (initPersist true) []).time_series_data.map
        Bucket.time_in_seconds).getLast? =
      some (Option.elim (List.getLast? ([] : List Frame)) 0 (fun f => pyInt f.t)) :=
  C1_bucket_indices true [] (by simp) (by simp)

/-- C6: conservation — in a single-session run on a fresh instance, for every
category the sum of that category's per-bucket counts over all emitted buckets
(final flush included) equals that category's final `category_counts` total. -/
theorem C6_conservation (u : Bool) (frames : List Frame) (c : Category) :
    sumBuckets (detect_and_count (initPersist u) frames).time_series_data c =
      getCount (detect_and_count (initPersist u) frames).category_counts c := by
  have hinv := conserve_fold frames (initLoop (initPersist u)) (by
    intro k
    simp [initLoop, initPersist, sumBuckets, SecondCounts.get_zero, getCount])
  rw [show detect_and_count (initPersist u) frames =
        finalFlush (frames.foldl stepFrame (initLoop (initPersist u))) from rfl,
      finalFlush_tsd, finalFlush_cc, sumBuckets_append, sumBuckets_singleton,
      mkBucket_getCat]
  exact hinv c

/-- C7 counterexample: two single-frame streams observing the same two
entities (one bus, one car) in opposite orders produce category totals that
agree on every category, yet the dominant category differs: bus-first gives
`bus`, car-first gives `car`.  The tie is broken by dict insertion order
(first-observed category), not by the `vehicle_categories` declaration order
(which lists `car` first and would give `car` both times), so the result is
not independent of observation order. -/
theorem C7_counterexample :
    (detect_and_count (initPersist false) [cexC7FrameBC]).category_counts =
      [(Category.bus, 1), (Category.car, 1)] ∧
    (detect_and_count (initPersist false) [cexC7FrameCB]).category_counts =
      [(Category.car, 1), (Category.bus, 1)] ∧
    getCount [(Category.bus, 1), (Category.car, 1)] Category.car =
      getCount [(Category.car, 1), (Category.bus, 1)] Category.car ∧
    getCount [(Category.bus, 1), (Category.car, 1)] Category.bus =
      getCount [(Category.car, 1), (Category.bus, 1)] Category.bus ∧
    pyMaxKey [(Category.bus, 1), (Category.car, 1)] = some Category.bus ∧
    pyMaxKey [(Category.car, 1), (Category.bus, 1)] = some Category.car ∧
    Category.bus ≠ Category.car := by
  decide

/-- C7 (amended): the dominant category is a category attaining the maximum
count in `category_counts`, with ties broken by earliest position in the
insertion-ordered dict (the order in which categories were first credited):
`pyMaxKey` returns the first entry whose count is strictly greater than every
earlier entry's and at least every later entry's.  Determinism holds for a
fixed stream, but the tie-break depends on observation order, not on the
mapping table's declaration order. -/
theorem C7_dominant_first_max (x : Category × Nat) (rest : List (Category × Nat)) :
    ∃ c, pyMaxKey (x :: rest) = some c ∧
      ∃ l₁ v l₂, x :: rest = l₁ ++ (c, v) :: l₂ ∧
        (∀ p ∈ l₁, p.2 < v) ∧ (∀ p ∈ l₂, p.2 ≤ v) := by
  obtain ⟨k, v0⟩ := x
  obtain ⟨c, hc, hcase⟩ := pyMaxAux_spec rest k v0
  refine ⟨c, by simp [pyMaxKey, hc], ?_⟩
  rcases hcase with ⟨rfl, hle⟩ | ⟨l₁, w, l₂, hsplit, hvw, hbef, haft⟩
  · exact ⟨[], v0, rest, rfl, fun p hp => absurd hp (List.not_mem_nil p), hle⟩
  · refine ⟨(k, v0) :: l₁, w, l₂, by simp [hsplit], ?_, haft⟩
    intro p hp
    rcases List.mem_cons.mp hp with rfl | hp2
    · exact hvw
    · exact hbef p hp2

/-- C8: for any category-totals mapping, the computed percentage of each entry
is `100 × count / total` when the total is positive and 0 when the total is 0
(total division over ℚ, no division error), and for a positive total the
percentages sum to exactly 100 over the rationals. -/
theorem C8_percentages (cc : List (Category × Nat)) :
    ((cc.map Prod.snd).sum = 0 →
        computePercentages cc = cc.map (fun p => (p.1, (0 : ℚ)))) ∧
    (0 < (cc.map Prod.snd).sum →
        computePercentages cc =
          cc.map (fun p => (p.1, 100 * (p.2 : ℚ) / (((cc.map Prod.snd).sum : Nat) : ℚ))) ∧
        ((computePercentages cc).map Prod.snd).sum = 100) := by
  constructor
  · intro h
    simp [computePercentages, h]
  · intro h
    have hT : (((cc.map Prod.snd).sum : Nat) : ℚ) ≠ 0 :=
      Nat.cast_ne_zero.mpr (Nat.pos_iff_ne_zero.mp h)
    constructor
    · simp only [computePercentages, if_pos h]
      apply List.map_congr_left
      intro p _
      exact congrArg (Prod.mk p.1) (by ring)
    · have hmap : ((computePercentages cc).map Prod.snd) =
          cc.map (fun p => ((p.2 : ℚ) / (((cc.map Prod.snd).sum : Nat) : ℚ)) * 100) := by
        simp only [computePercentages, if_pos h, List.map_map]
        rfl
      rw [hmap, map_div_mul_sum, sum_snd_cast, div_self hT, one_mul]

/-- C8 witness: the percentage-sum law evaluated on the concrete mapping with
one car, whose total 1 is positive. -/
theorem C8_percentages_witness :
    ((computePercentages [(Category.car, 1)]).map Prod.snd).sum = 100 :=
  ((C8_percentages [(Category.car, 1)]).2 (by decide)).2

/-- C9: state carries over between `detect_and_count` calls on one instance.
With `s1` the state after a first call, a second call on the same instance (a)
returns a time-series table that extends the first call's rows, (b) only grows
the seen set and the detection counter, (c) restarts the per-call locals
(`category_counts`, `current_second`, `second_counts`) fresh while carrying
over `tracked_vehicles`, `detection_counter` and `time_series_data`, and (d)
counts nothing in the second call when every detection there carries a tracker
id already seen in the first call. -/
theorem C9_session_carryover (p : Persist) (frames1 frames2 : List Frame)
    (s1 : LoopState) (h1 : detect_and_count p frames1 = s1) :
    (∃ l, (detect_and_count (persistOf s1) frames2).time_series_data =
        s1.time_series_data ++ l) ∧
    s1.tracked_vehicles ⊆ (detect_and_count (persistOf s1) frames2).tracked_vehicles ∧
    s1.detection_counter ≤ (detect_and_count (persistOf s1) frames2).detection_counter ∧
    (initLoop (persistOf s1)).category_counts = [] ∧
    (initLoop (persistOf s1)).current_second = 0 ∧
    (initLoop (persistOf s1)).second_counts = SecondCounts.zero ∧
    (initLoop (persistOf s1)).tracked_vehicles = s1.tracked_vehicles ∧
    (initLoop (persistOf s1)).detection_counter = s1.detection_counter ∧
    (initLoop (persistOf s1)).time_series_data = s1.time_series_data ∧
    (s1.use_tracking = true →
      (∀ f ∈ frames2, f.trackingRaises = false ∧
        ∃ ids, f.trackerIds = some ids ∧ ∀ i ∈ ids, i ∈ s1.tracked_vehicles) →
      (detect_and_count (persistOf s1) frames2).category_counts = []) := by
  refine ⟨?_, ?_, ?_, rfl, rfl, rfl, rfl, rfl, rfl, ?_⟩
  · obtain ⟨l, hl⟩ := fold_tsd_extends frames2 (initLoop (persistOf s1))
    refine ⟨l ++ [mkBucket (frames2.foldl stepFrame (initLoop (persistOf s1))).current_second
        (frames2.foldl stepFrame (initLoop (persistOf s1))).second_counts], ?_⟩
    show (finalFlush (frames2.foldl stepFrame (initLoop (persistOf s1)))).time_series_data = _
    rw [finalFlush_tsd, hl]
    exact List.append_assoc _ _ _
  · exact fold_tracked_mono frames2 (initLoop (persistOf s1))
  · exact fold_counter_mono frames2 (initLoop (persistOf s1))
  · intro hu h2
    have hrec := fold_no_new frames2 (initLoop (persistOf s1)) hu (by
      intro f hf
      obtain ⟨hr, ids, hi, hm⟩ := h2 f hf
      exact ⟨hr, ids, hi, fun i hii => hm i hii⟩)
    exact hrec.1

/-- C9 witness: a first call sees a car with tracker id 7; a second call with
no frames counts nothing, exercising the carry-over statement at a concrete
instance. -/
theorem C9_session_carryover_witness :
    (detect_and_count
        (persistOf (detect_and_count (initPersist true) [cexC9Frame]))
        []).category_counts = [] :=
  (C9_session_carryover (initPersist true) [cexC9Frame] [] _ rfl).2.2.2.2.2.2.2.2.2
    (by decide)
    (fun f hf => absurd hf (List.not_mem_nil f))
